import Mathlib

/-!
# Verification of the SailPoint IdentityNow OAA connector

Shallow embedding of `connectors/sailpoint-identitynow/oaa_sailpoint-identitynow.py`
and proofs about its pagination loop (`get_paginated_results`), identity fetching
(`fetch_identities`), batch processing (`process_identities_batch`), authentication
(`authenticate`), request timing (`_make_request`) and the sync orchestration
(`sync`).

The downstream graph sink (the `oaaclient` SDK: `CustomApplication`, `add_local_user`,
`add_local_group`, membership edges) is an external dependency that is not part of the
repository; its operations are modelled from the specification's description of the
GraphBuilder: identities and groups are keyed by `unique_id`, groups are deduplicated
by `unique_id` within a run with the first occurrence winning, and membership edges
are added idempotently. External I/O (the HTTP server, the push endpoint) is modelled
as explicit parameters so that the connector's control flow is a pure function of them.
-/

namespace SailPointOAA

/-! ## Pagination: `get_paginated_results` (source lines 379-436)

The HTTP layer is abstracted as a `server` function from the request `offset` (the
only query parameter the loop varies; `limit`, `count`, `filters`, `sorters` are
fixed for the whole fetch) to either an `APIErr` (a failed `_make_request`) or a
`PageResponse`: the JSON item list together with the optional `X-Total-Count`
response header. -/

/-- Embedding of the connector's `APIError` exception (message plus optional
HTTP status code; the attached response object is not modelled). -/
structure APIErr where
  message : String
  status_code : Option Nat
deriving Repr, DecidableEq

/-- One page response from the source API: the JSON array of items and the
`X-Total-Count` header when present. -/
structure PageResponse (α : Type) where
  items : List α
  totalHeader : Option Nat
deriving Repr, DecidableEq

/-- Embedding of the `while True` pagination loop of `get_paginated_results`,
with explicit fuel for termination (the Python loop has no syntactic bound).
Returns `none` when the fuel runs out before the loop exits, otherwise the list
of offsets actually requested (one per HTTP request, in order) paired with either
the propagated `APIErr` or the full stream of yielded items. Per iteration the
source reads `items = response.json()`, `total = int(response.headers.get(
"X-Total-Count", 0))`, breaks on an empty item list, yields every item, advances
`offset += len(items)` and breaks once `offset >= total`. -/
def get_paginated_results {α : Type} (server : Nat → Except APIErr (PageResponse α)) :
    Nat → Nat → Option (List Nat × Except APIErr (List α))
  | 0, _ => none
  | fuel + 1, offset =>
    match server offset with
    | .error e => some ([offset], .error e)
    | .ok resp =>
      if resp.items.isEmpty then
        some ([offset], .ok [])
      else if resp.totalHeader.getD 0 ≤ offset + resp.items.length then
        some ([offset], .ok resp.items)
      else
        match get_paginated_results server fuel (offset + resp.items.length) with
        | none => none
        | some (offs, res) => some (offset :: offs, res.map (resp.items ++ ·))

/-- Total length of a list of pages (cumulative number of returned items). -/
def pagesLen {α : Type} (ps : List (List α)) : Nat :=
  (ps.map List.length).sum

/-- The sequence of offsets the loop requests when served the pages `ps` starting
from `base`: partial sums of the page lengths shifted by `base`. -/
def pageOffsets {α : Type} (base : Nat) (ps : List (List α)) : List Nat :=
  (List.range ps.length).map (fun i => base + pagesLen (ps.take i))

theorem pagesLen_nil {α : Type} : pagesLen ([] : List (List α)) = 0 := rfl

theorem pagesLen_cons {α : Type} (p : List α) (ps : List (List α)) :
    pagesLen (p :: ps) = p.length + pagesLen ps := by
  simp [pagesLen]

theorem pageOffsets_nil {α : Type} (base : Nat) :
    pageOffsets base ([] : List (List α)) = [] := rfl

theorem pageOffsets_cons {α : Type} (base : Nat) (p : List α) (ps : List (List α)) :
    pageOffsets base (p :: ps) = base :: pageOffsets (base + p.length) ps := by
  simp only [pageOffsets, List.length_cons, List.range_succ_eq_map, List.map_cons,
    List.map_map, List.cons.injEq]
  refine ⟨by simp [pagesLen], ?_⟩
  apply List.map_congr_left
  intro i _
  simp [Function.comp, List.take_succ_cons, pagesLen_cons, Nat.add_assoc]

/-- Generalized completeness of the pagination loop: if the server serves the
non-empty pages `ps` at exactly the offsets the loop computes (each carrying the
advertised total `t`), the cumulative length stays below `t` before the last page
and reaches `t` with the last page, then for any fuel of at least `ps.length` the
loop terminates, requests exactly the offsets `pageOffsets base ps`, and yields
the concatenation of the pages. -/
theorem get_paginated_results_complete_from {α : Type}
    (server : Nat → Except APIErr (PageResponse α)) (t : Nat) :
    ∀ (ps : List (List α)) (base : Nat), ps ≠ [] →
    (∀ p ∈ ps, p ≠ []) →
    (∀ i (h : i < ps.length),
        server (base + pagesLen (ps.take i)) = .ok ⟨ps.get ⟨i, h⟩, some t⟩) →
    (∀ i, i + 1 < ps.length → base + pagesLen (ps.take (i + 1)) < t) →
    t ≤ base + pagesLen ps →
    ∀ fuel, ps.length ≤ fuel →
    get_paginated_results server fuel base =
      some (pageOffsets base ps, .ok ps.flatten) := by
  intro ps
  induction ps with
  | nil => intro base hne; exact absurd rfl hne
  | cons p rest ih =>
    intro base _ hpne hserve hmid hlast fuel hfuel
    match fuel, hfuel with
    | fuel + 1, hfuel =>
      have hserve0 := hserve 0 (by simp)
      simp only [List.take_zero, pagesLen_nil, Nat.add_zero, List.get] at hserve0
      have hp : p ≠ [] := hpne p (by simp)
      have hpe : p.isEmpty = false := by
        cases p with
        | nil => exact absurd rfl hp
        | cons a l => rfl
      cases rest with
      | nil =>
        have ht : t ≤ base + p.length := by
          have := hlast
          simpa [pagesLen_cons, pagesLen_nil] using this
        simp only [get_paginated_results, hserve0, hpe, Bool.false_eq_true,
          if_false, Option.getD_some]
        rw [if_pos ht]
        simp [pageOffsets_cons, pageOffsets_nil]
      | cons q qs =>
        have hlt : base + p.length < t := by
          have := hmid 0 (by simp)
          simpa [pagesLen_cons, pagesLen_nil] using this
        have hrec := ih (base + p.length) (by simp)
          (fun r hr => hpne r (by simp [hr]))
          (fun i h => by
            have := hserve (i + 1) (by simpa using Nat.succ_lt_succ h)
            simpa [pagesLen_cons, Nat.add_assoc] using this)
          (fun i h => by
            have := hmid (i + 1) (by simpa using Nat.succ_lt_succ h)
            simpa [pagesLen_cons, Nat.add_assoc] using this)
          (by
            have := hlast
            simpa [pagesLen_cons, Nat.add_assoc] using this)
          fuel (by simp only [List.length_cons] at hfuel ⊢; omega)
        simp only [get_paginated_results, hserve0, hpe, Bool.false_eq_true,
          if_false, Option.getD_some]
        have hng : ¬ (t ≤ base + p.length) := by omega
        rw [if_neg hng]
        rw [hrec]
        simp [Except.map, pageOffsets_cons]

/-- Claim C1 top-level form: pagination started at offset 0 over a sequence of
non-empty pages whose cumulative length first reaches the advertised total at the
last page terminates, performs one request per page at offsets 0, len p₀,
len p₀ + len p₁, …, and yields exactly the concatenation of the pages. -/
theorem get_paginated_results_complete {α : Type}
    (server : Nat → Except APIErr (PageResponse α)) (t : Nat)
    (ps : List (List α)) (hne : ps ≠ []) (hpne : ∀ p ∈ ps, p ≠ [])
    (hserve : ∀ i (h : i < ps.length),
        server (pagesLen (ps.take i)) = .ok ⟨ps.get ⟨i, h⟩, some t⟩)
    (hmid : ∀ i, i + 1 < ps.length → pagesLen (ps.take (i + 1)) < t)
    (hlast : t ≤ pagesLen ps) :
    ∀ fuel, ps.length ≤ fuel →
    get_paginated_results server fuel 0 =
      some (pageOffsets 0 ps, .ok ps.flatten) := by
  intro fuel hfuel
  exact get_paginated_results_complete_from server t ps 0 hne hpne
    (by simpa using hserve) (by simpa using hmid) (by simpa using hlast) fuel hfuel

/-- A concrete three-item source serving pages of 2 and 1 items with
`X-Total-Count = 3`: page at offset 0 is `["a", "b"]`, page at offset 2 is
`["c"]`; any other offset fails. -/
def demoServer : Nat → Except APIErr (PageResponse String) := fun off =>
  if off = 0 then .ok ⟨["a", "b"], some 3⟩
  else if off = 2 then .ok ⟨["c"], some 3⟩
  else .error ⟨"unexpected offset", some 404⟩

/-- Witness for C1 at the spec's own scenario: pages of 2 and 1 items with
total 3 yield the 3 records in order via exactly two requests at offsets 0
and 2. -/
theorem get_paginated_results_complete_witness :
    get_paginated_results demoServer 2 0 =
      some ([0, 2], .ok ["a", "b", "c"]) := by
  have h := get_paginated_results_complete demoServer 3 [["a", "b"], ["c"]]
    (by simp) (by simp)
    (by
      intro i h
      match i with
      | 0 => rfl
      | 1 => rfl
      | n + 2 => simp at h)
    (by
      intro i h
      match i with
      | 0 => decide
      | n + 1 => simp only [List.length_cons, List.length_nil] at h; omega)
    (by decide) 2 (by simp)
  simpa [pageOffsets_cons, pageOffsets_nil, pagesLen_cons, pagesLen_nil] using h

/-- Claim C8: whenever the response at the current offset is an empty item
list, the loop breaks immediately after that single request — regardless of the
advertised total count. -/
theorem get_paginated_results_empty_page_stops {α : Type}
    (server : Nat → Except APIErr (PageResponse α)) (off fuel : Nat)
    (th : Option Nat) (h : server off = .ok ⟨[], th⟩) :
    get_paginated_results server (fuel + 1) off = some ([off], .ok ([] : List α)) := by
  simp [get_paginated_results, h]

/-- A server that always answers with an empty page while still advertising a
total of 100 items. -/
def emptyPageServer : Nat → Except APIErr (PageResponse String) := fun _ =>
  .ok ⟨[], some 100⟩

/-- Witness for C8: the empty first page ends pagination at once although the
advertised total (100) was never reached. -/
theorem get_paginated_results_empty_page_stops_witness :
    get_paginated_results emptyPageServer 5 0 = some ([0], .ok []) := by
  exact get_paginated_results_empty_page_stops emptyPageServer 0 4 (some 100) rfl

/-- Claim C9: a first page without the `X-Total-Count` header is read as
`total = 0`; if its item list is non-empty, the loop yields exactly those items
and stops, requesting no further page. -/
theorem get_paginated_results_missing_total_stops {α : Type}
    (server : Nat → Except APIErr (PageResponse α)) (items : List α) (fuel : Nat)
    (h0 : server 0 = .ok ⟨items, none⟩) (hne : items ≠ []) :
    get_paginated_results server (fuel + 1) 0 = some ([0], .ok items) := by
  have he : items.isEmpty = false := by
    cases items with
    | nil => exact absurd rfl hne
    | cons a l => rfl
  simp [get_paginated_results, h0, he]

/-- A server whose first page has two items but no `X-Total-Count` header, and
which would serve two more items at offset 2 if asked. -/
def headerlessServer : Nat → Except APIErr (PageResponse String) := fun off =>
  if off = 0 then .ok ⟨["a", "b"], none⟩
  else .ok ⟨["c", "d"], none⟩

/-- Witness for C9: with the header absent the fetch stops after the first
page, never requesting the two further items the server holds at offset 2. -/
theorem get_paginated_results_missing_total_stops_witness :
    get_paginated_results headerlessServer 9 0 = some ([0], .ok ["a", "b"]) := by
  exact get_paginated_results_missing_total_stops headerlessServer ["a", "b"] 8
    rfl (by simp)

/-! ## Records and the graph accumulator

`IdentityData.from_api_response` (source lines 134-159) and
`process_identities_batch` (source lines 462-542). The graph accumulator
(`CustomApplication` of the external `oaaclient` SDK) is modelled from the
specification's GraphBuilder. -/

/-- A group reference inside a raw identity record; the connector reads
`group.get("name")` and `group.get("id")`. -/
structure GroupRef where
  name : Option String
  id : Option String
deriving Repr, DecidableEq

/-- A raw identity record from the source API, restricted to the keys the
connector reads; `none` models an absent key. The timestamp keys (`created`,
`lastLogin`) are read only to be reformatted and stored and no verified claim
concerns them, so they are not modelled. -/
structure RawRecord where
  id : Option String
  name : Option String
  email : Option String
  status : Option String
  groups : List GroupRef
deriving Repr, DecidableEq

/-- The connector's `IdentityData` dataclass (timestamp fields omitted as
above). -/
structure IdentityData where
  id : String
  name : String
  email : Option String
  status : Option String
  groups : List GroupRef
deriving Repr, DecidableEq

/-- Embedding of `IdentityData.from_api_response`: `if not data.get("id")`
(key absent or value empty) raises `ValueError("Identity must have an ID")`;
otherwise the remaining fields default to empty string / `None`. -/
def IdentityData.from_api_response (data : RawRecord) : Except String IdentityData :=
  if data.id.getD "" = "" then
    .error "Identity must have an ID"
  else
    .ok { id := data.id.getD "", name := data.name.getD "",
          email := data.email, status := data.status, groups := data.groups }

/-- A record passes validation exactly when its `id` is present and non-empty. -/
def recordValid (raw : RawRecord) : Bool := raw.id.getD "" ≠ ""

/-- The unique identifier a valid record contributes. -/
def recordId (raw : RawRecord) : String := raw.id.getD ""

/-- A group in the accumulator. -/
structure LocalGroup where
  name : String
  unique_id : String
deriving Repr, DecidableEq

/-- A user in the accumulator, with the fields the connector writes: name,
unique id, identities (the email when present), activity flag, custom
properties, membership edges (by group name) and application-wide permissions. -/
structure LocalUser where
  name : String
  unique_id : String
  identities : List String
  is_active : Bool
  properties : List (String × String)
  groups : List String
  permissions : List String
deriving Repr, DecidableEq

/-- Modelled from the spec: the external SDK's `CustomApplication` accumulator
("GraphBuilder: process-run-scoped accumulator holding all Identities, Groups,
and permission grants"). Users and groups are kept in insertion order and keyed
by `unique_id`. The property and permission definitions installed by
`_create_provider_data` are declarative metadata, not graph content, and are
not modelled. -/
structure CustomApplication where
  local_users : List LocalUser
  local_groups : List LocalGroup
deriving Repr, DecidableEq

/-- The empty accumulator produced by `_create_provider_data`. -/
def provider_data₀ : CustomApplication := ⟨[], []⟩

/-- Modelled from the spec: `add_local_group` — "Group: deduplicated by
unique_id within a run — first occurrence wins, subsequent references to the
same id are membership links only, not re-creations". Adding a group whose
`unique_id` already exists is a no-op. -/
def add_local_group (lgs : List LocalGroup) (name uid : String) : List LocalGroup :=
  if lgs.any (fun g => g.unique_id = uid) then lgs else lgs ++ [⟨name, uid⟩]

/-- Modelled from the spec: `add_local_user` upserts by `unique_id` ("upsert
into the GraphBuilder (identity by unique_id)"; glossary: "Upsert:
create-or-update keyed by a stable unique identifier"). -/
def add_local_user (users : List LocalUser) (u : LocalUser) : List LocalUser :=
  if users.any (fun v => v.unique_id = u.unique_id) then
    users.map (fun v => if v.unique_id = u.unique_id then u else v)
  else users ++ [u]

/-- Modelled from the spec: a membership edge is "added idempotently — adding
an existing edge is a no-op, not an error". -/
def add_group_edge (edges : List String) (g : String) : List String :=
  if g ∈ edges then edges else edges ++ [g]

/-- One iteration of the group loop of `process_identities_batch` (source lines
505-517), acting on the pair (accumulator groups, this user's membership
edges). The walrus guard skips a group whose `name` key is absent or empty.
`sdkRaises` is an oracle giving the group names for which the external SDK call
inside the `try` block raises; the `except` clause only logs a warning, so a
raising group leaves the state unchanged. The creation guard is the source's
`if group_name not in provider_data.local_groups`: a key-membership test of the
display name against the group mapping, whose keys are unique ids. -/
def process_group (sdkRaises : String → Bool)
    (st : List LocalGroup × List String) (g : GroupRef) :
    List LocalGroup × List String :=
  match g.name with
  | none => st
  | some gname =>
    if gname = "" then st
    else if sdkRaises gname then st
    else
      let lgs := if st.1.any (fun lg => lg.unique_id = gname) then st.1
                 else add_local_group st.1 gname (g.id.getD gname)
      (lgs, add_group_edge st.2 gname)

/-- Python truthiness of an optional string field: the key is present and its
value non-empty (`if identity.email:` is false both for `None` and for `""`). -/
def truthy (s : Option String) : Bool := s.getD "" ≠ ""

/-- The user record built for one validated identity: `add_local_user` with
name, email identity and unique id, then `is_active = True`, the custom
properties, the membership edges from the group loop, and the `access`
permission (source lines 485-524). The email identity entry
(`identities=[identity.email] if identity.email else []`, line 488), the
`email` and `status` properties (lines 499-502) and the permission grant
(`if identity.email:`, lines 519-524) are all guarded by Python truthiness
tests, so an empty-string email or status adds nothing. -/
def built_user (sdkRaises : String → Bool) (lgs : List LocalGroup)
    (i : IdentityData) : LocalUser :=
  let st := i.groups.foldl (process_group sdkRaises) (lgs, [])
  let u : LocalUser := {
    name := i.name
    unique_id := i.id
    identities := if truthy i.email then [i.email.getD ""] else []
    is_active := true
    properties :=
      [("sailpoint_id", i.id)] ++
      (if truthy i.email then [("email", i.email.getD "")] else []) ++
      (if truthy i.status then [("status", i.status.getD "")] else [])
    groups := st.2
    permissions := [] }
  if truthy i.email then { u with permissions := ["access"] } else u

/-- Processing of one raw identity inside the batch loop (source lines
480-533): validation failure is caught (`except ValueError`) and counted as an
error; otherwise the user is built and upserted and the group loop's new groups
are installed. Returns the updated accumulator and whether the record counted
as processed (`true`) or as an error (`false`). -/
def process_identity (sdkRaises : String → Bool) (app : CustomApplication)
    (raw : RawRecord) : CustomApplication × Bool :=
  match IdentityData.from_api_response raw with
  | .error _ => (app, false)
  | .ok i =>
    ({ local_users := add_local_user app.local_users (built_user sdkRaises app.local_groups i),
       local_groups := (i.groups.foldl (process_group sdkRaises) (app.local_groups, [])).1 },
     true)

/-- One step of the batch fold, threading the accumulator and the
`processed` / `errors` counters. -/
def batch_step (sdkRaises : String → Bool)
    (acc : CustomApplication × Nat × Nat) (raw : RawRecord) :
    CustomApplication × Nat × Nat :=
  let r := process_identity sdkRaises acc.1 raw
  if r.2 then (r.1, acc.2.1 + 1, acc.2.2) else (r.1, acc.2.1, acc.2.2 + 1)

/-- Embedding of `process_identities_batch` (source lines 462-542): fold the
batch, counting `processed` and `errors`. The source logs the two counters when
the loop ends; the embedding returns them with the final accumulator. -/
def process_identities_batch (sdkRaises : String → Bool)
    (app : CustomApplication) (identities : List RawRecord) :
    CustomApplication × Nat × Nat :=
  identities.foldl (batch_step sdkRaises) (app, 0, 0)

/-! ### Basic lemmas about record processing -/

theorem from_api_response_valid (raw : RawRecord) (h : recordValid raw = true) :
    IdentityData.from_api_response raw =
      .ok ⟨recordId raw, raw.name.getD "", raw.email, raw.status, raw.groups⟩ := by
  simp only [recordValid, ne_eq, decide_not, Bool.not_eq_eq_eq_not, Bool.not_true,
    decide_eq_false_iff_not] at h
  simp [IdentityData.from_api_response, recordId, h]

theorem from_api_response_invalid (raw : RawRecord) (h : recordValid raw = false) :
    IdentityData.from_api_response raw = .error "Identity must have an ID" := by
  simp only [recordValid, ne_eq, decide_not, Bool.not_eq_eq_eq_not, Bool.not_false,
    decide_eq_true_eq] at h
  simp [IdentityData.from_api_response, h]

theorem process_identity_invalid (sdkRaises : String → Bool)
    (app : CustomApplication) (raw : RawRecord) (h : recordValid raw = false) :
    process_identity sdkRaises app raw = (app, false) := by
  simp [process_identity, from_api_response_invalid raw h]

theorem process_identity_valid (sdkRaises : String → Bool)
    (app : CustomApplication) (raw : RawRecord) (h : recordValid raw = true) :
    process_identity sdkRaises app raw =
      ({ local_users := add_local_user app.local_users
            (built_user sdkRaises app.local_groups
              ⟨recordId raw, raw.name.getD "", raw.email, raw.status, raw.groups⟩),
         local_groups :=
            (raw.groups.foldl (process_group sdkRaises) (app.local_groups, [])).1 },
       true) := by
  simp [process_identity, from_api_response_valid raw h]

theorem process_identity_snd (sdkRaises : String → Bool)
    (app : CustomApplication) (raw : RawRecord) :
    (process_identity sdkRaises app raw).2 = recordValid raw := by
  cases h : recordValid raw with
  | false => simp [process_identity_invalid sdkRaises app raw h]
  | true => simp [process_identity_valid sdkRaises app raw h]

theorem built_user_unique_id (sdkRaises : String → Bool) (lgs : List LocalGroup)
    (i : IdentityData) : (built_user sdkRaises lgs i).unique_id = i.id := by
  unfold built_user
  cases h : truthy i.email <;> simp [h]

theorem batch_step_fst (sdkRaises : String → Bool)
    (acc : CustomApplication × Nat × Nat) (raw : RawRecord) :
    (batch_step sdkRaises acc raw).1 = (process_identity sdkRaises acc.1 raw).1 := by
  cases h : (process_identity sdkRaises acc.1 raw).2 <;> simp [batch_step, h]

/-! ### Counter accounting (claims C7 and C10) -/

theorem batch_counts_aux (sdkRaises : String → Bool) :
    ∀ (rs : List RawRecord) (app : CustomApplication) (p e : Nat),
    (rs.foldl (batch_step sdkRaises) (app, p, e)).2.1 = p + rs.countP recordValid ∧
    (rs.foldl (batch_step sdkRaises) (app, p, e)).2.2 =
      e + rs.countP (fun r => !recordValid r) := by
  intro rs
  induction rs with
  | nil => intro app p e; simp
  | cons r rs ih =>
    intro app p e
    simp only [List.foldl_cons, List.countP_cons]
    cases hv : recordValid r with
    | false =>
      have hstep : batch_step sdkRaises (app, p, e) r =
          ((process_identity sdkRaises app r).1, p, e + 1) := by
        simp [batch_step, process_identity_snd, hv]
      rw [hstep]
      have h := ih (process_identity sdkRaises app r).1 p (e + 1)
      refine ⟨?_, ?_⟩
      · rw [h.1]; simp [hv]
      · rw [h.2]; simp [hv]; omega
    | true =>
      have hstep : batch_step sdkRaises (app, p, e) r =
          ((process_identity sdkRaises app r).1, p + 1, e) := by
        simp [batch_step, process_identity_snd, hv]
      rw [hstep]
      have h := ih (process_identity sdkRaises app r).1 (p + 1) e
      refine ⟨?_, ?_⟩
      · rw [h.1]; simp [hv]; omega
      · rw [h.2]; simp [hv]

/-! ### Identity upsert accounting (claim C7) -/

theorem add_local_user_fresh (users : List LocalUser) (u : LocalUser)
    (h : ∀ v ∈ users, v.unique_id ≠ u.unique_id) :
    add_local_user users u = users ++ [u] := by
  unfold add_local_user
  rw [if_neg]
  simp only [List.any_eq_true, decide_eq_true_eq, not_exists]
  rintro v ⟨hv, he⟩
  exact h v hv he

/-- The sequence of user unique ids produced by a batch whose valid records
carry pairwise distinct ids, none colliding with a pre-existing user: the
existing ids followed by the valid records' ids in order. -/
theorem batch_users_ids (sdkRaises : String → Bool) :
    ∀ (rs : List RawRecord) (app : CustomApplication) (p e : Nat),
    ((rs.filter recordValid).map recordId).Nodup →
    (∀ r ∈ rs, recordValid r = true →
        ∀ u ∈ app.local_users, u.unique_id ≠ recordId r) →
    (rs.foldl (batch_step sdkRaises) (app, p, e)).1.local_users.map LocalUser.unique_id
      = app.local_users.map LocalUser.unique_id ++ (rs.filter recordValid).map recordId := by
  intro rs
  induction rs with
  | nil => intro app p e _ _; simp
  | cons r rs ih =>
    intro app p e hnd hfresh
    simp only [List.foldl_cons]
    cases hv : recordValid r with
    | false =>
      have hstep : batch_step sdkRaises (app, p, e) r = (app, p, e + 1) := by
        simp [batch_step, process_identity_invalid sdkRaises app r hv]
      rw [hstep]
      rw [ih app p (e + 1)
        (by simpa [List.filter_cons, hv] using hnd)
        (fun s hs hvs u hu => hfresh s (by simp [hs]) hvs u hu)]
      simp [List.filter_cons, hv]
    | true =>
      set u := built_user sdkRaises app.local_groups
          ⟨recordId r, r.name.getD "", r.email, r.status, r.groups⟩ with hu
      have huid : u.unique_id = recordId r := by
        rw [hu, built_user_unique_id]
      have hufresh : ∀ v ∈ app.local_users, v.unique_id ≠ u.unique_id := by
        intro v hv' he
        exact hfresh r (by simp) hv v hv' (huid ▸ he)
      have hstep : batch_step sdkRaises (app, p, e) r =
          ({ local_users := app.local_users ++ [u],
             local_groups :=
               (r.groups.foldl (process_group sdkRaises) (app.local_groups, [])).1 },
           p + 1, e) := by
        simp [batch_step, process_identity_valid sdkRaises app r hv, ← hu,
          add_local_user_fresh _ _ hufresh]
      rw [hstep]
      have hnd' := hnd
      simp only [List.filter_cons, hv, if_true, List.map_cons, List.nodup_cons] at hnd'
      rw [ih _ (p + 1) e hnd'.2
        (by
          intro s hs hvs v hv' hvid
          simp only [List.mem_append, List.mem_singleton] at hv'
          rcases hv' with hv' | hv'
          · exact hfresh s (by simp [hs]) hvs v hv' hvid
          · apply hnd'.1
            have hrs : recordId r = recordId s := by rw [← huid, ← hv', hvid]
            rw [hrs]
            exact List.mem_map_of_mem recordId (List.mem_filter.mpr ⟨hs, hvs⟩))]
      simp [List.filter_cons, hv, huid]

/-! ### Group deduplication (claim C6) -/

theorem add_local_group_nodup (lgs : List LocalGroup) (name uid : String)
    (h : (lgs.map LocalGroup.unique_id).Nodup) :
    ((add_local_group lgs name uid).map LocalGroup.unique_id).Nodup := by
  unfold add_local_group
  by_cases hc : lgs.any (fun g => g.unique_id = uid) = true
  · rw [if_pos hc]; exact h
  · rw [if_neg hc]
    simp only [List.any_eq_true, decide_eq_true_eq, not_exists] at hc
    simp only [List.map_append, List.map_cons, List.map_nil]
    rw [List.nodup_append]
    refine ⟨h, List.nodup_singleton _, ?_⟩
    intro x hx hx'
    simp only [List.mem_singleton] at hx'
    obtain ⟨g, hg, hgx⟩ := List.mem_map.mp hx
    exact hc g ⟨hg, by rw [hgx, hx']⟩

theorem process_group_fst_nodup (sdkRaises : String → Bool)
    (st : List LocalGroup × List String) (g : GroupRef)
    (h : (st.1.map LocalGroup.unique_id).Nodup) :
    ((process_group sdkRaises st g).1.map LocalGroup.unique_id).Nodup := by
  unfold process_group
  cases hgn : g.name with
  | none => exact h
  | some gname =>
    by_cases h1 : gname = ""
    · simpa [h1] using h
    · by_cases h2 : sdkRaises gname = true
      · simpa [h1, h2] using h
      · by_cases h3 : st.1.any (fun lg => lg.unique_id = gname) = true
        · simpa [h1, h2, h3] using h
        · simpa [h1, h2, h3] using
            add_local_group_nodup st.1 gname (g.id.getD gname) h

theorem foldl_process_group_nodup (sdkRaises : String → Bool) (gs : List GroupRef) :
    ∀ st : List LocalGroup × List String, (st.1.map LocalGroup.unique_id).Nodup →
    ((gs.foldl (process_group sdkRaises) st).1.map LocalGroup.unique_id).Nodup := by
  induction gs with
  | nil => intro st h; exact h
  | cons g gs ih =>
    intro st h
    exact ih _ (process_group_fst_nodup sdkRaises st g h)

theorem process_identity_groups_nodup (sdkRaises : String → Bool)
    (app : CustomApplication) (raw : RawRecord)
    (h : (app.local_groups.map LocalGroup.unique_id).Nodup) :
    ((process_identity sdkRaises app raw).1.local_groups.map LocalGroup.unique_id).Nodup := by
  cases hv : recordValid raw with
  | false => simpa [process_identity_invalid sdkRaises app raw hv] using h
  | true =>
    rw [process_identity_valid sdkRaises app raw hv]
    exact foldl_process_group_nodup sdkRaises raw.groups (app.local_groups, []) h

theorem batch_groups_nodup (sdkRaises : String → Bool) :
    ∀ (rs : List RawRecord) (app : CustomApplication) (p e : Nat),
    (app.local_groups.map LocalGroup.unique_id).Nodup →
    ((rs.foldl (batch_step sdkRaises) (app, p, e)).1.local_groups.map
        LocalGroup.unique_id).Nodup := by
  intro rs
  induction rs with
  | nil => intro app p e h; exact h
  | cons r rs ih =>
    intro app p e h
    simp only [List.foldl_cons]
    have h2 := process_identity_groups_nodup sdkRaises app r h
    rw [← batch_step_fst sdkRaises (app, p, e) r] at h2
    have : batch_step sdkRaises (app, p, e) r =
        ((batch_step sdkRaises (app, p, e) r).1,
         (batch_step sdkRaises (app, p, e) r).2.1,
         (batch_step sdkRaises (app, p, e) r).2.2) := rfl
    rw [this]
    exact ih _ _ _ h2

theorem countP_not_total (l : List RawRecord) :
    l.countP recordValid + l.countP (fun r => !recordValid r) = l.length := by
  induction l with
  | nil => simp
  | cons a l ih =>
    simp only [List.countP_cons]
    cases h : recordValid a <;> simp [h] <;> omega

/-! ### Claim theorems about batch processing -/

/-- Claim C6 (amended). Deduplication by `unique_id` holds as an invariant: a
batch processed into a fresh accumulator never contains two groups with the
same `unique_id`, so a later reference to an already-created `unique_id` never
creates a second group; and in the two-identity scenario a group referenced by
both identities is created once, appearing exactly once in the group set with
one membership edge per user. What the original claim adds — that the first
record referencing a group id always creates the group — fails on the code
(see the counterexample theorem): creation is guarded by the display name's
presence among existing unique ids, so it holds only when no display name
collides with a different group's `unique_id`. -/
theorem local_groups_deduplicated_by_unique_id :
    (∀ (sdkRaises : String → Bool) (rs : List RawRecord),
      ((process_identities_batch sdkRaises provider_data₀ rs).1.local_groups.map
          LocalGroup.unique_id).Nodup) ∧
    (process_identities_batch (fun _ => false) provider_data₀
        [⟨some "u1", some "Alice", none, none, [⟨some "eng", some "g1"⟩]⟩,
         ⟨some "u2", some "Bob", none, none, [⟨some "eng", some "g1"⟩]⟩]).1.local_groups
      = [⟨"eng", "g1"⟩] ∧
    (process_identities_batch (fun _ => false) provider_data₀
        [⟨some "u1", some "Alice", none, none, [⟨some "eng", some "g1"⟩]⟩,
         ⟨some "u2", some "Bob", none, none, [⟨some "eng", some "g1"⟩]⟩]).1.local_users.map
        LocalUser.groups = [["eng"], ["eng"]] := by
  refine ⟨?_, by decide, by decide⟩
  intro sdkRaises rs
  exact batch_groups_nodup sdkRaises rs provider_data₀ 0 0 (by simp [provider_data₀])

/-- Counterexample to claim C6 as stated. One record references the groups
`{name: "X", id: "g1"}` and then `{name: "g1", id: "g2"}`. The creation guard
`if group_name not in provider_data.local_groups` tests the display name
against the unique-id keys, and the second group's display name `"g1"` equals
the first group's unique id, so the guard skips creation: the first (and only)
record referencing group id `"g2"` does not create that group — only the
membership edge is added. The claim's "the first record referencing a group id
creates the group" is therefore false. -/
theorem group_creation_skipped_on_name_uid_collision :
    (process_identities_batch (fun _ => false) provider_data₀
        [⟨some "u1", some "Alice", none, none,
          [⟨some "X", some "g1"⟩, ⟨some "g1", some "g2"⟩]⟩]).1.local_groups
      = [⟨"X", "g1"⟩] ∧
    ((process_identities_batch (fun _ => false) provider_data₀
        [⟨some "u1", some "Alice", none, none,
          [⟨some "X", some "g1"⟩, ⟨some "g1", some "g2"⟩]⟩]).1.local_groups.map
        LocalGroup.unique_id).contains "g2" = false ∧
    (process_identities_batch (fun _ => false) provider_data₀
        [⟨some "u1", some "Alice", none, none,
          [⟨some "X", some "g1"⟩, ⟨some "g1", some "g2"⟩]⟩]).1.local_users.map
        LocalUser.groups = [["X", "g1"]] := by
  exact ⟨by decide, by decide, by decide⟩

/-- Claim C7: a batch of `N` records of which exactly `K` fail validation (id
absent or empty) and whose valid records carry pairwise distinct ids yields
`processed = N - K`, `errors = K`, and exactly `N - K` identities in the
accumulator; no record failure aborts the batch (the fold is total). -/
theorem process_identities_batch_outcome (sdkRaises : String → Bool)
    (rs : List RawRecord)
    (hdistinct : ((rs.filter recordValid).map recordId).Nodup) :
    (process_identities_batch sdkRaises provider_data₀ rs).2.1
        = rs.length - rs.countP (fun r => !recordValid r) ∧
    (process_identities_batch sdkRaises provider_data₀ rs).2.2
        = rs.countP (fun r => !recordValid r) ∧
    (process_identities_batch sdkRaises provider_data₀ rs).1.local_users.length
        = rs.length - rs.countP (fun r => !recordValid r) := by
  have hc := batch_counts_aux sdkRaises rs provider_data₀ 0 0
  have htot := countP_not_total rs
  have hvalid : rs.countP recordValid = rs.length - rs.countP (fun r => !recordValid r) := by
    omega
  refine ⟨?_, ?_, ?_⟩
  · have := hc.1
    simpa [process_identities_batch, hvalid] using this
  · have := hc.2
    simpa [process_identities_batch] using this
  · have hu := batch_users_ids sdkRaises rs provider_data₀ 0 0 hdistinct
      (by intro r hr hv u hu; simp [provider_data₀] at hu)
    have hl := congrArg List.length hu
    simp only [List.length_map, List.length_append] at hl
    have hz : provider_data₀.local_users.length = 0 := rfl
    rw [hz, Nat.zero_add] at hl
    calc (process_identities_batch sdkRaises provider_data₀ rs).1.local_users.length
        = (List.filter recordValid rs).length := hl
      _ = List.countP recordValid rs := (List.countP_eq_length_filter recordValid rs).symm
      _ = rs.length - rs.countP (fun r => !recordValid r) := hvalid

/-- The concrete batch witnessing C7: three records, the middle one without an
id key. -/
def c7batch : List RawRecord :=
  [⟨some "u1", some "Alice", some "a@x.com", none, []⟩,
   ⟨none, some "NoId", none, none, []⟩,
   ⟨some "u2", some "Bob", none, some "active", []⟩]

/-- Witness for C7: N = 3, K = 1 gives processed 2, errors 1, and 2 users. -/
theorem process_identities_batch_outcome_witness :
    (process_identities_batch (fun _ => false) provider_data₀ c7batch).2.1 = 2 ∧
    (process_identities_batch (fun _ => false) provider_data₀ c7batch).2.2 = 1 ∧
    (process_identities_batch (fun _ => false) provider_data₀ c7batch).1.local_users.length
      = 2 := by
  have h := process_identities_batch_outcome (fun _ => false) c7batch (by decide)
  exact ⟨h.1.trans (by decide), h.2.1.trans (by decide), h.2.2.trans (by decide)⟩

/-- Claim C10: a group-processing exception is caught per group. The counters
over any batch are independent of which group calls raise — `processed` is
always the number of valid records and `errors` the number of validation
failures, so group-link failures never increment the error count and never
stop a record from counting as processed; a raising group leaves the state
unchanged and the fold proceeds with the remaining groups; the permission
grant of a record with a truthy (present and non-empty) email is attached
independently of group failures; and concretely, with the first of two groups
raising, the second group's membership edge is still added. -/
theorem group_link_failures_isolated :
    (∀ (sdkRaises : String → Bool) (app : CustomApplication) (rs : List RawRecord),
      (process_identities_batch sdkRaises app rs).2.1 = rs.countP recordValid ∧
      (process_identities_batch sdkRaises app rs).2.2
        = rs.countP (fun r => !recordValid r)) ∧
    (∀ (sdkRaises : String → Bool) (st : List LocalGroup × List String)
        (g : GroupRef) (gname : String),
      g.name = some gname → gname ≠ "" → sdkRaises gname = true →
      process_group sdkRaises st g = st) ∧
    (∀ (sdkRaises : String → Bool) (lgs : List LocalGroup) (i : IdentityData),
      truthy i.email = true → (built_user sdkRaises lgs i).permissions = ["access"]) ∧
    (built_user (fun s => s = "g1") []
        ⟨"u1", "Alice", some "a@x.com", none,
         [⟨some "g1", some "g1"⟩, ⟨some "g2", some "g2"⟩]⟩).groups = ["g2"] := by
  refine ⟨?_, ?_, ?_, by decide⟩
  · intro sdkRaises app rs
    have h := batch_counts_aux sdkRaises rs app 0 0
    exact ⟨by simpa [process_identities_batch] using h.1,
           by simpa [process_identities_batch] using h.2⟩
  · intro sdkRaises st g gname hg h1 h2
    simp [process_group, hg, h1, h2]
  · intro sdkRaises lgs i h
    simp [built_user, h]

/-- Witness for C10 at concrete inputs: a group call that raises leaves the
state unchanged, a record whose only group raises still gets its permission,
and a one-record batch whose single group raises still reports
processed 1, errors 0. -/
theorem group_link_failures_isolated_witness :
    process_group (fun _ => true) ([], []) ⟨some "eng", some "g1"⟩ = ([], []) ∧
    (built_user (fun _ => true) []
        ⟨"u1", "Alice", some "a@x.com", none, [⟨some "eng", some "g1"⟩]⟩).permissions
      = ["access"] ∧
    (process_identities_batch (fun _ => true) provider_data₀
        [⟨some "u1", some "Alice", some "a@x.com", none,
          [⟨some "eng", some "g1"⟩]⟩]).2 = (1, 0) := by
  refine ⟨group_link_failures_isolated.2.1 (fun _ => true) ([], [])
            ⟨some "eng", some "g1"⟩ "eng" rfl (by decide) rfl,
          group_link_failures_isolated.2.2.1 (fun _ => true) [] _ (by decide),
          ?_⟩
  have h := group_link_failures_isolated.1 (fun _ => true) provider_data₀
    [⟨some "u1", some "Alice", some "a@x.com", none, [⟨some "eng", some "g1"⟩]⟩]
  have hsplit : (process_identities_batch (fun _ => true) provider_data₀
      [⟨some "u1", some "Alice", some "a@x.com", none, [⟨some "eng", some "g1"⟩]⟩]).2
      = ((process_identities_batch (fun _ => true) provider_data₀
          [⟨some "u1", some "Alice", some "a@x.com", none,
            [⟨some "eng", some "g1"⟩]⟩]).2.1,
         (process_identities_batch (fun _ => true) provider_data₀
          [⟨some "u1", some "Alice", some "a@x.com", none,
            [⟨some "eng", some "g1"⟩]⟩]).2.2) := rfl
  rw [hsplit, h.1, h.2]
  decide

/-! ## Request timing: `__init__` (source lines 241-263) and `_make_request`
(source lines 345-377) -/

/-- The provider's timing state: `__init__` stores the configured rate limit
(`self.rate_limit = rate_limit`) and sets `self._last_request_time = 0`. -/
structure TimingState where
  rate_limit : Rat
  last_request_time : Rat
deriving Repr, DecidableEq

/-- `__init__` lines 256-257. -/
def init_timing (rate_limit : Rat) : TimingState := ⟨rate_limit, 0⟩

/-- `DEFAULT_RATE_LIMIT = 1.0` (source line 63), "seconds between requests". -/
def DEFAULT_RATE_LIMIT : Rat := 1

/-- Embedding of the timing behaviour of `_make_request`: its body builds the
URL, calls `self.session.request(...)` at once and converts request exceptions
to `APIError`. It contains no sleep and neither reads nor writes
`self.rate_limit` or `self._last_request_time` (no other method reads them
either). Its effect on timing is therefore: the wait applied before issuing
the HTTP request is 0 seconds and the timing state is returned unchanged,
whatever the current time `now` is. -/
def make_request_timing (st : TimingState) (_now : Rat) : Rat × TimingState :=
  (0, st)

/-- Claim C3 refuted on the code: for every timing state and current time — in
particular immediately after a previous request, when the configured spacing
has not elapsed — `_make_request` waits 0 seconds and leaves
`_last_request_time` untouched; with the default 1-second spacing, the wait
applied to a request issued at the very moment of the previous one is strictly
below the required spacing. No inter-request delay is ever enforced. -/
theorem make_request_applies_no_delay :
    (∀ (st : TimingState) (now : Rat), make_request_timing st now = (0, st)) ∧
    (make_request_timing (init_timing DEFAULT_RATE_LIMIT)
        (init_timing DEFAULT_RATE_LIMIT).last_request_time).1
      < (init_timing DEFAULT_RATE_LIMIT).rate_limit := by
  refine ⟨fun st now => rfl, ?_⟩
  norm_num [make_request_timing, init_timing, DEFAULT_RATE_LIMIT]

/-! ## Authentication: `authenticate` (source lines 290-343) -/

/-- The token endpoint's observable behaviour for one POST: a network-level
failure (a `RequestException` out of `session.post`), a response whose status
makes `raise_for_status` raise (non-2xx), or a parsed 2xx JSON object. -/
inductive TokenResponse where
  | networkFailure (message : String)
  | httpError (status : Nat)
  | okPayload (payload : List (String × String))
deriving Repr, DecidableEq

/-- What the `authenticate` call raises or returns: the connector's
`APIError`, a bare Python `KeyError` escaping the handler, or success carrying
the session's updated default headers. -/
inductive AuthOutcome where
  | raisedAPIError (status_code : Option Nat)
  | raisedKeyError (key : String)
  | success (headers : List (String × String))
deriving Repr, DecidableEq

/-- Insert-or-replace of one session header, preserving insertion order. -/
def set_header (hs : List (String × String)) (k v : String) :
    List (String × String) :=
  if hs.any (fun p => p.1 = k) then
    hs.map (fun p => if p.1 = k then (k, v) else p)
  else hs ++ [(k, v)]

/-- Embedding of `authenticate`: POST the client credentials; a
`RequestException` — a network failure, or the `HTTPError` from
`raise_for_status` on a non-2xx response — is caught and re-raised as
`APIError` carrying the response's status code when one exists. On 2xx the
payload is read with `token_data["access_token"]`: a missing key raises
`KeyError`, which the `except RequestException` clause does not catch. On
success `session.headers` is updated with the bearer token and the Accept
header. (The tenacity retry decorator around the method retries only on
`RequestException`, which the body never lets escape, so the body is never
re-run.) -/
def authenticate (resp : TokenResponse)
    (sessionHeaders : List (String × String)) : AuthOutcome :=
  match resp with
  | .networkFailure _ => .raisedAPIError none
  | .httpError status => .raisedAPIError (some status)
  | .okPayload payload =>
    match payload.lookup "access_token" with
    | none => .raisedKeyError "access_token"
    | some tok =>
      .success (set_header
        (set_header sessionHeaders "Authorization" ("Bearer " ++ tok))
        "Accept" "application/json")

/-- Claim C5 refuted on the code: a 2xx token response whose payload lacks the
`access_token` field makes `authenticate` raise `KeyError` — not the
authentication error type, contradicting the claim's "no other kind of
exception" and the function's own docstring ("Raises: APIError: If
authentication fails"). The remaining parts behave as claimed: non-2xx and
network failures raise `APIError`, and success installs the bearer token into
the session's default headers. -/
theorem authenticate_keyerror_on_malformed_payload :
    authenticate (.okPayload [("token_type", "bearer")]) []
      = .raisedKeyError "access_token" ∧
    (∀ sc, authenticate (.okPayload [("token_type", "bearer")]) []
      ≠ .raisedAPIError sc) ∧
    (∀ s, authenticate (.httpError s) [] = .raisedAPIError (some s)) ∧
    (∀ m hs, authenticate (.networkFailure m) hs = .raisedAPIError none) ∧
    authenticate (.okPayload [("access_token", "tok123")]) []
      = .success [("Authorization", "Bearer tok123"),
                  ("Accept", "application/json")] := by
  refine ⟨by decide, ?_, fun s => rfl, fun m hs => rfl, by decide⟩
  intro sc h
  rw [show authenticate (.okPayload [("token_type", "bearer")]) []
      = .raisedKeyError "access_token" from by decide] at h
  exact AuthOutcome.noConfusion h

/-! ## Sync orchestration: `sync` (source lines 544-598) -/

/-- A push failure from the sink (`OAAClientError` with its detail lines). -/
structure PushErr where
  message : String
  details : List String
deriving Repr, DecidableEq

/-- The externally observable steps of one sync run, in order of execution. -/
inductive SyncStep where
  | authenticate_step
  | get_or_create_provider
  | fetch
  | process_batches
  | push
deriving Repr, DecidableEq

/-- What a failed run raises: the connector's `APIError`, the
`AttributeError` from evaluating the missing `cleanup_provider` attribute, or
the sink's push error. -/
inductive SyncError where
  | api (e : APIErr)
  | attribute_missing (name : String)
  | push_failed (e : PushErr)
deriving Repr, DecidableEq

/-- The external collaborators of one sync run: the outcome of
authentication, the source API server with the fuel bounding the pagination
loop, the oracle for raising SDK group calls, and the sink's response to the
final push. Provider lookup/creation and the icon upload
(`_get_or_create_provider`) are modelled as total sink operations, per the
spec ("icon-attach failure is logged and ignored, non-fatal"). -/
structure SyncEnv where
  authResult : Except APIErr Unit
  server : Nat → Except APIErr (PageResponse RawRecord)
  fuel : Nat
  sdkRaises : String → Bool
  pushResult : Except PushErr (List String)

/-- Embedding of `fetch_identities` (source lines 438-460): drain the
paginated generator into a list; an `APIError` is logged and re-raised.
`none` when the pagination fuel is insufficient. -/
def fetch_identities (server : Nat → Except APIErr (PageResponse RawRecord))
    (fuel : Nat) : Option (Except APIErr (List RawRecord)) :=
  (get_paginated_results server fuel 0).map Prod.snd

/-- `BATCH_SIZE = 1000` (source line 57). -/
def BATCH_SIZE : Nat := 1000

/-- Embedding of `sync`: authenticate (fatal on failure); if `force`, evaluate
`self.cleanup_provider(provider_name)` — `SailPointOAAProvider` defines no
method or attribute of that name, so the lookup raises `AttributeError`,
which the outer `except` clause only logs and re-raises; otherwise resolve
the provider, build the base payload, fetch all identities (fatal on
`APIError`), process them in batches of `BATCH_SIZE` into one accumulator,
and push it (warnings logged; a push error is fatal). Returns the ordered
list of steps performed with the run's outcome, or `none` when the pagination
fuel is insufficient. -/
def sync (force : Bool) (env : SyncEnv) :
    Option (List SyncStep × Except SyncError CustomApplication) :=
  match env.authResult with
  | .error e => some ([.authenticate_step], .error (.api e))
  | .ok _ =>
    if force then
      some ([.authenticate_step], .error (.attribute_missing "cleanup_provider"))
    else
      match fetch_identities env.server env.fuel with
      | none => none
      | some (.error e) =>
        some ([.authenticate_step, .get_or_create_provider, .fetch],
          .error (.api e))
      | some (.ok identities) =>
        let app := (List.toChunks BATCH_SIZE identities).foldl
          (fun acc batch => (process_identities_batch env.sdkRaises acc batch).1)
          provider_data₀
        match env.pushResult with
        | .error e =>
          some ([.authenticate_step, .get_or_create_provider, .fetch,
                 .process_batches, .push], .error (.push_failed e))
        | .ok _ =>
          some ([.authenticate_step, .get_or_create_provider, .fetch,
                 .process_batches, .push], .ok app)

/-- Claim C2: in every run in which the paginated fetch raises an `APIError`
(so authentication succeeded and, given the broken `force` branch, `force` is
not set — a forced run aborts even before fetching), `sync` performs exactly
authentication, provider resolution and the failing fetch, propagates that
same `APIError`, and the sink's push is never invoked. -/
theorem sync_no_push_on_fetch_error (env : SyncEnv) (e : APIErr)
    (ha : env.authResult = .ok ())
    (hf : fetch_identities env.server env.fuel = some (.error e)) :
    sync false env =
      some ([.authenticate_step, .get_or_create_provider, .fetch],
        .error (.api e)) ∧
    SyncStep.push ∉ [SyncStep.authenticate_step, SyncStep.get_or_create_provider,
      SyncStep.fetch] := by
  refine ⟨?_, by decide⟩
  simp [sync, ha, hf]

/-- An environment whose source API fails on the very first page request. -/
def failingEnv : SyncEnv :=
  { authResult := .ok ()
    server := fun _ => .error ⟨"API request failed", some 500⟩
    fuel := 10
    sdkRaises := fun _ => false
    pushResult := .ok [] }

/-- Witness for C2: with the first page request failing with a 500, the run
ends after the fetch step with that `APIError` and without a push. -/
theorem sync_no_push_on_fetch_error_witness :
    sync false failingEnv =
      some ([.authenticate_step, .get_or_create_provider, .fetch],
        .error (.api ⟨"API request failed", some 500⟩)) ∧
    SyncStep.push ∉ [SyncStep.authenticate_step, SyncStep.get_or_create_provider,
      SyncStep.fetch] :=
  sync_no_push_on_fetch_error failingEnv ⟨"API request failed", some 500⟩ rfl rfl

/-- Claim C4 refuted on the code: `sync(force=True)` never deletes or
recreates the provider. After successful authentication the force branch
evaluates `self.cleanup_provider`, an attribute `SailPointOAAProvider` does
not define, so the run raises `AttributeError` with only the authentication
step performed: nothing is deleted, recreated, looked up, fetched or pushed. -/
theorem sync_force_raises_attribute_error (env : SyncEnv)
    (ha : env.authResult = .ok ()) :
    sync true env = some ([SyncStep.authenticate_step],
      .error (.attribute_missing "cleanup_provider")) ∧
    SyncStep.push ∉ [SyncStep.authenticate_step] ∧
    SyncStep.fetch ∉ [SyncStep.authenticate_step] := by
  refine ⟨?_, by decide, by decide⟩
  simp [sync, ha]

/-- Witness for C4: a forced run against the concrete environment stops at the
missing `cleanup_provider` attribute. -/
theorem sync_force_raises_attribute_error_witness :
    sync true failingEnv = some ([SyncStep.authenticate_step],
      .error (.attribute_missing "cleanup_provider")) :=
  (sync_force_raises_attribute_error failingEnv rfl).1

end SailPointOAA
